import Mathlib

/-!
Shallow embedding of the long-poll synchronization engine of
`src/zpui_lib/libs/matrix_client/matrix_client/client.py` (class `MatrixClient`).

Modelling conventions:
* Python dicts that hold events are modelled by the structure `MEvent`; the
  `room_id` key that `_sync` writes into each event is an `Option String`.
* The listener registries are modelled exactly as the code holds them:
  `listeners` / `ephemeral_listeners` are insertion-ordered lists of
  records with a `uid` and an optional `event_type`; `presence_listeners`
  is a dict keyed by uid (modelled as the insertion-ordered list of its
  keys, with the callback named by its uid); `invite_listeners` and
  `left_listeners` are plain lists of callbacks (named by `Nat`).
* Fresh `uuid4()` values are modelled by an explicit `uid` argument; the
  freshness of uuid4 becomes the hypothesis `uid` not already registered.
* Callbacks are observed, not executed: running `_sync` produces a trace of
  `Action`s, one per state mutation, room hand-off, or callback invocation,
  in execution order.  The one place where a callback's own effect matters
  (a callback calling `remove_listener` during dispatch, claim C5) has a
  dedicated model, `dispatchLive`, in which a callback carries the list of
  listener uids it removes.
* The client is modelled in its default, encryption-disabled configuration
  (`encryption=False`): every `if self._encryption:` block of `_sync` and
  the `to_device` loop are no-ops in that configuration.
* A Python `KeyError` from a missing top-level response key is modelled by
  `Option` fields in `SyncResponse` and the error value `SyncError.keyError`;
  the partially mutated client state and the callbacks already run at the
  moment the exception is raised are returned alongside the error, exactly
  as the real exception leaves them behind.
-/

namespace MatrixSync

/-- Model of one Matrix event (a Python dict): its `type` key (`etype`), the
`room_id` key that `_sync` assigns in place (lines 716, 720, 739 of
client.py), and `body` standing for the remaining payload. -/
structure MEvent where
  etype : String
  room_id : Option String
  body : String
deriving DecidableEq

/-- One entry of `MatrixClient.listeners` / `MatrixClient.ephemeral_listeners`:
the dict `with keys uid, callback, event_type` appended by `add_listener`
(lines 391-413) resp. `add_ephemeral_listener` (lines 446-465).  The callback
is named by its `uid`. -/
structure Listener where
  uid : Nat
  event_type : Option String
deriving DecidableEq

/-- `MatrixClient.add_listener` (client.py lines 391-413): appends a record
with a fresh uuid (modelled by the argument `uid`) and the optional
`event_type` filter, and returns that uid. -/
def add_listener (listeners : List Listener) (uid : Nat) (event_type : Option String) :
    List Listener × Nat :=
  (listeners ++ [⟨uid, event_type⟩], uid)

/-- `MatrixClient.remove_listener` (client.py lines 415-422):
`self.listeners[:] = (l for l in self.listeners if l['uid'] != uid)` -
keeps, in order, exactly the entries whose uid differs. -/
def remove_listener (listeners : List Listener) (uid : Nat) : List Listener :=
  listeners.filter (fun l => decide (l.uid ≠ uid))

/-- `MatrixClient.add_ephemeral_listener` (client.py lines 446-465): same
shape as `add_listener`, on the ephemeral registry. -/
def add_ephemeral_listener (listeners : List Listener) (uid : Nat)
    (event_type : Option String) : List Listener × Nat :=
  (listeners ++ [⟨uid, event_type⟩], uid)

/-- `MatrixClient.remove_ephemeral_listener` (client.py lines 467-474). -/
def remove_ephemeral_listener (listeners : List Listener) (uid : Nat) : List Listener :=
  listeners.filter (fun l => decide (l.uid ≠ uid))

/-- `MatrixClient.add_presence_listener` (client.py lines 424-436):
`self.presence_listeners[uuid4()] = callback`; returns the uid.  The dict is
modelled by its insertion-ordered key list. -/
def add_presence_listener (d : List Nat) (uid : Nat) : List Nat × Nat :=
  (d ++ [uid], uid)

/-- `MatrixClient.remove_presence_listener` (client.py lines 438-444):
`self.presence_listeners.pop(uid)` - removes the key when present and raises
`KeyError` (modelled by `none`) when the uid is absent. -/
def remove_presence_listener (d : List Nat) (uid : Nat) : Option (List Nat) :=
  if uid ∈ d then some (d.filter (fun u => decide (u ≠ uid))) else none

/-- `MatrixClient.add_invite_listener` (client.py lines 476-483): appends the
callback; note the method returns no id. -/
def add_invite_listener (ls : List Nat) (callback : Nat) : List Nat :=
  ls ++ [callback]

/-- `MatrixClient.add_leave_listener` (client.py lines 485-492): appends the
callback to `left_listeners`; note the method returns no id. -/
def add_leave_listener (ls : List Nat) (callback : Nat) : List Nat :=
  ls ++ [callback]

/-- Outcome of one `self._sync(timeout_ms)` call inside `listen_forever`:
either success, or a `MatrixRequestError` with an HTTP status code. -/
inductive SyncOutcome where
  | success
  | requestError (code : Nat)
deriving DecidableEq

/-- One iteration of the `while (self.should_listen)` loop of
`MatrixClient.listen_forever` (client.py lines 554-591), restricted to the
retrying path.  The accumulator is (sleep-trace, tracked `_bad_sync_timeout`).
On success line 572 resets `_bad_sync_timeout = bad_sync_timeout`.  On a
`MatrixRequestError` with `e.code >= 500`, line 579 executes
`sleep(bad_sync_timeout)` - the constant base parameter - and line 580 then
sets `_bad_sync_timeout = min(_bad_sync_timeout * 2, self.bad_sync_timeout_limit)`.
A non-5xx error re-raises or calls the handler without sleeping. -/
def listenStep (base limit : Nat) (acc : List Nat × Nat) (o : SyncOutcome) :
    List Nat × Nat :=
  match o with
  | SyncOutcome.success => (acc.1, base)
  | SyncOutcome.requestError code =>
    if 500 ≤ code then (acc.1 ++ [base], min (acc.2 * 2) limit) else acc

/-- The sequence of sleep durations `listen_forever(timeout_ms, handler, base)`
performs over a given sequence of sync outcomes; `limit` is
`self.bad_sync_timeout_limit` (3600, line 170). -/
def listen_forever_sleeps (base limit : Nat) (outcomes : List SyncOutcome) : List Nat :=
  (outcomes.foldl (listenStep base limit) ([], base)).1

/-- The value of the tracked `_bad_sync_timeout` variable after the given
sequence of sync outcomes (initialised to `bad_sync_timeout` at line 567). -/
def listen_forever_backoff (base limit : Nat) (outcomes : List SyncOutcome) : Nat :=
  (outcomes.foldl (listenStep base limit) ([], base)).2

/-- The poll-loop control state of a `MatrixClient`: the `should_listen` flag,
the `sync_thread` attribute, and (as observation) the list of worker threads
started so far, each named by a `Nat` modelling the Thread object. -/
structure ListenerThreadState where
  should_listen : Bool
  sync_thread : Option Nat
  started : List Nat
deriving DecidableEq

/-- The Idle state: a fresh client (`__init__` lines 166-167 set
`sync_thread = None`, `should_listen = False`; no worker started). -/
def idleThreadState : ListenerThreadState :=
  ⟨false, none, []⟩

/-- `MatrixClient.start_listener_thread` (client.py lines 593-612): with no
check of whether a worker is already running, it constructs a new daemon
`Thread` (modelled by the fresh id `tid`), stores it in `sync_thread`, sets
`should_listen = True` and starts it.  (The `except RuntimeError` arm only
fires when the OS cannot start a thread and is not modelled.) -/
def start_listener_thread (st : ListenerThreadState) (tid : Nat) : ListenerThreadState :=
  ⟨true, some tid, st.started ++ [tid]⟩

/-- A listener as seen by the mutation-aware dispatch model of claim C5: its
uid, its `event_type` filter, and the uids its callback removes (via
`remove_listener`) when invoked. -/
structure CbListener where
  uid : Nat
  event_type : Option String
  removes : List Nat
deriving DecidableEq

/-- Effect on the live `self.listeners` list of a callback that calls
`remove_listener` (lines 415-422) for each uid in `us`: CPython slice
assignment `lst[:] = (...)` replaces the contents of the same list object,
so the change is visible to an iterator positioned inside the list. -/
def removeUids (lst : List CbListener) (us : List Nat) : List CbListener :=
  us.foldl (fun acc u => acc.filter (fun l => decide (l.uid ≠ u))) lst

/-- The global-listener dispatch loop `for listener in self.listeners:`
(client.py lines 727-732) with Python's live-list iteration semantics: the
iterator holds an index `i` into the current list contents, fetches
`lst[i]`, runs the matching callback (which may shrink the list in place),
then advances to `i + 1`.  `fuel` bounds the iteration count; since `i`
grows by one per step and the list never grows, the loop performs at most
`lst.length` steps, so starting `fuel` at the initial length is exact.
Result: (final list contents, uids invoked in order). -/
def dispatchLiveFuel (etype : String) :
    Nat → Nat → List CbListener → List Nat → List CbListener × List Nat
  | 0, _, lst, invoked => (lst, invoked)
  | fuel + 1, i, lst, invoked =>
    if h : i < lst.length then
      let l := lst.get ⟨i, h⟩
      if l.event_type = none ∨ l.event_type = some etype then
        dispatchLiveFuel etype fuel (i + 1) (removeUids lst l.removes) (invoked ++ [l.uid])
      else
        dispatchLiveFuel etype fuel (i + 1) lst invoked
    else (lst, invoked)

/-- Dispatch of one timeline event of type `etype` to the live global
listener list (client.py lines 727-732). -/
def dispatchLive (etype : String) (lst : List CbListener) : List CbListener × List Nat :=
  dispatchLiveFuel etype lst.length 0 lst []

/-- The `join`-section entry for one room in a `/sync` response:
`sync_room["timeline"]["prev_batch"]`, `sync_room["state"]["events"]`,
`sync_room["timeline"]["events"]`, `sync_room["ephemeral"]["events"]`. -/
structure JoinedRoomSection where
  prev_batch : String
  state : List MEvent
  timeline : List MEvent
  ephemeral : List MEvent
deriving DecidableEq

/-- The `rooms` section of a `/sync` response: `invite` maps a room id to its
`invite_state` (opaque here), `leave` maps a room id to the `left_room`
payload (opaque here), `join` maps a room id to its `JoinedRoomSection`.
Python dicts iterate in insertion order, so each is a key-ordered list. -/
structure RoomsSection where
  invite : List (String × String)
  leave : List (String × String)
  join : List (String × JoinedRoomSection)
deriving DecidableEq

/-- One `/sync` response batch.  `none` in a field models the absence of that
required top-level key, on which the corresponding subscript in `_sync`
raises `KeyError`. -/
structure SyncResponse where
  next_batch : Option String
  presence : Option (List MEvent)
  rooms : Option RoomsSection
deriving DecidableEq

/-- The session state of a `MatrixClient` that `_sync` reads and mutates:
the continuation token `sync_token`, the active room set `self.rooms`
(modelled by its insertion-ordered key list; the Room objects themselves
live in `room.py`, outside the embedded core, and are observed through the
hand-off actions below), and the five listener registries. -/
structure ClientState where
  sync_token : Option String
  rooms : List String
  listeners : List Listener
  ephemeral_listeners : List Listener
  presence_listeners : List Nat
  invite_listeners : List Nat
  left_listeners : List Nat
deriving DecidableEq

/-- One observable step of `_sync`, in execution order: a state mutation, a
hand-off to a Room object, or a listener callback invocation. -/
inductive Action where
  | tokenAdvance (tok : String)
  | presenceCb (uid : Nat) (ev : MEvent)
  | inviteCb (uid : Nat) (rid : String) (invite_state : String)
  | leaveCb (uid : Nat) (rid : String) (left_room : String)
  | dropRoom (rid : String)
  | mkRoom (rid : String)
  | setPrevBatch (rid : String) (pb : String)
  | processState (rid : String) (ev : MEvent)
  | putEvent (rid : String) (ev : MEvent)
  | globalCb (rid : String) (uid : Nat) (ev : MEvent)
  | putEphemeral (rid : String) (ev : MEvent)
  | ephemeralCb (rid : String) (uid : Nat) (ev : MEvent)
deriving DecidableEq

/-- Error signalled by `_sync`: a `KeyError` on a missing required top-level
section of the response. -/
inductive SyncError where
  | keyError
deriving DecidableEq

/-- Result of one `_sync` call: the error (if the call raised), the client
state as the call left it, and the trace of observable actions performed
before returning or raising. -/
structure SyncResult where
  err : Option SyncError
  state : ClientState
  actions : List Action
deriving DecidableEq

/-- Trace of the presence loop (client.py lines 680-682):
`for presence_update in response['presence']['events']:
for callback in self.presence_listeners.values(): callback(presence_update)`. -/
def presenceTrace (plist : List Nat) (evs : List MEvent) : List Action :=
  evs.flatMap (fun ev => plist.map (fun uid => Action.presenceCb uid ev))

/-- Trace of the invite loop (client.py lines 684-686):
`for room_id, invite_room in response['rooms']['invite'].items():
for listener in self.invite_listeners: listener(room_id, invite_room['invite_state'])`. -/
def inviteTrace (ilist : List Nat) (invites : List (String × String)) : List Action :=
  invites.flatMap (fun p => ilist.map (fun uid => Action.inviteCb uid p.1 p.2))

/-- Dispatch of one (already `room_id`-tagged) timeline event to the global
listeners (client.py lines 727-732): each listener in list order, invoked
when its `event_type` is `None` or equals the event's type. -/
def globalDispatch (glist : List Listener) (rid : String) (ev : MEvent) : List Action :=
  glist.flatMap (fun l =>
    if l.event_type = none ∨ l.event_type = some ev.etype then
      [Action.globalCb rid l.uid ev]
    else [])

/-- Dispatch of one ephemeral event to the ephemeral listeners (client.py
lines 742-747), same filtering as `globalDispatch`. -/
def ephemeralDispatch (elist : List Listener) (rid : String) (ev : MEvent) : List Action :=
  elist.flatMap (fun l =>
    if l.event_type = none ∨ l.event_type = some ev.etype then
      [Action.ephemeralCb rid l.uid ev]
    else [])

/-- One iteration of the leave loop (client.py lines 688-692): first every
`left_listeners` callback gets `(room_id, left_room)`, then
`if room_id in self.rooms: del self.rooms[room_id]` - the guarded delete is
recorded as one `dropRoom` action whose effect on the key list is removal
when present and nothing otherwise; it can never raise. -/
def leaveStep (llist : List Nat) (acc : List String × List Action)
    (p : String × String) : List String × List Action :=
  (acc.1.filter (fun r => decide (r ≠ p.1)),
   acc.2 ++ llist.map (fun uid => Action.leaveCb uid p.1 p.2) ++ [Action.dropRoom p.1])

/-- One iteration of the join loop (client.py lines 708-747) for room
`p.1` with section `p.2`: create the room if it is new (line 709-710,
`_mkroom` registers the id), set `prev_batch` (line 713), then for each
state event assign `event['room_id']` and hand it to
`room._process_state_event` (lines 715-717), for each timeline event assign
`room_id`, hand it to `room._put_event` and fan it out to the global
listeners (lines 719-732), and for each ephemeral event assign `room_id`,
hand it to `room._put_ephemeral_event` and fan it out to the ephemeral
listeners (lines 738-747). -/
def joinRoomStep (glist elist : List Listener) (acc : List String × List Action)
    (p : String × JoinedRoomSection) : List String × List Action :=
  let rid := p.1
  let jr := p.2
  let rids1 := if rid ∈ acc.1 then acc.1 else acc.1 ++ [rid]
  let acts1 := if rid ∈ acc.1 then acc.2 else acc.2 ++ [Action.mkRoom rid]
  let acts2 := acts1 ++ [Action.setPrevBatch rid jr.prev_batch]
  let acts3 := acts2 ++ jr.state.flatMap
    (fun ev => [Action.processState rid { ev with room_id := some rid }])
  let acts4 := acts3 ++ jr.timeline.flatMap (fun ev =>
    Action.putEvent rid { ev with room_id := some rid } ::
      globalDispatch glist rid { ev with room_id := some rid })
  let acts5 := acts4 ++ jr.ephemeral.flatMap (fun ev =>
    Action.putEphemeral rid { ev with room_id := some rid } ::
      ephemeralDispatch elist rid { ev with room_id := some rid })
  (rids1, acts5)

/-- `MatrixClient._sync` (client.py lines 663-747) in the default
encryption-disabled configuration, statement by statement:
line 674 `self.sync_token = response["next_batch"]` (raising `KeyError` first
when the key is missing), lines 680-682 the presence loop, lines 684-686 the
invite loop (the first subscript of `response['rooms']`, raising `KeyError`
when the `rooms` key is missing - note this is after the token advance and
the presence dispatch), lines 688-692 the leave loop, lines 708-747 the join
loop.  Every `if self._encryption:` block and the `to_device` loop are
no-ops here.  On a raise, the state already mutated and the actions already
performed are returned with the error. -/
def syncModel (st : ClientState) (resp : SyncResponse) : SyncResult :=
  match resp.next_batch with
  | none => ⟨some SyncError.keyError, st, []⟩
  | some tok =>
    let st1 := { st with sync_token := some tok }
    let acts1 := [Action.tokenAdvance tok]
    match resp.presence with
    | none => ⟨some SyncError.keyError, st1, acts1⟩
    | some presEvents =>
      let acts2 := acts1 ++ presenceTrace st1.presence_listeners presEvents
      match resp.rooms with
      | none => ⟨some SyncError.keyError, st1, acts2⟩
      | some rsec =>
        let acts3 := acts2 ++ inviteTrace st1.invite_listeners rsec.invite
        let lres := rsec.leave.foldl (leaveStep st1.left_listeners) (st1.rooms, acts3)
        let jres := rsec.join.foldl (joinRoomStep st1.listeners st1.ephemeral_listeners) lres
        ⟨none, { st1 with rooms := jres.1 }, jres.2⟩

/-- Does an action invoke a listener callback?  (Used to state that a batch
invoked, or did not invoke, any listener.) -/
def isListenerCallback : Action → Bool
  | Action.presenceCb _ _ => true
  | Action.inviteCb _ _ _ => true
  | Action.leaveCb _ _ _ => true
  | Action.globalCb _ _ _ => true
  | Action.ephemeralCb _ _ _ => true
  | _ => false

/-- Is the action a global-listener callback invocation? -/
def isGlobalCb : Action → Bool
  | Action.globalCb _ _ _ => true
  | _ => false

/-- Does a room-scoped action carry an event tagged with the id of its own
room?  Actions that carry no event are vacuously fine. -/
def eventRoomIdOk : Action → Bool
  | Action.processState rid ev => ev.room_id == some rid
  | Action.putEvent rid ev => ev.room_id == some rid
  | Action.globalCb rid _ ev => ev.room_id == some rid
  | Action.putEphemeral rid ev => ev.room_id == some rid
  | Action.ephemeralCb rid _ ev => ev.room_id == some rid
  | _ => true

/-- Boolean form of the listener filter of spec section 3: exact-match
event-type string or no filter. -/
def matchesFilterB (l : Listener) (etype : String) : Bool :=
  decide (l.event_type = none ∨ l.event_type = some etype)

/-- Spec side, section 4.2 step 4 wording: for each left room, dispatch the
leave listeners, then drop the room - written as one chunk per left room. -/
def specLeaveTrace (llist : List Nat) (leaves : List (String × String)) : List Action :=
  leaves.flatMap (fun p =>
    llist.map (fun uid => Action.leaveCb uid p.1 p.2) ++ [Action.dropRoom p.1])

/-- Spec side, section 4.1: `drop_room` removes a room id from the active
set (no error if absent), applied for each left room in order. -/
def specLeaveRooms : List String → List (String × String) → List String
  | rids, [] => rids
  | rids, p :: rest => specLeaveRooms (rids.filter (fun r => decide (r ≠ p.1))) rest

/-- Spec side, section 4.1: `get_or_create_room` - register the room id if
it is new, keep the set unchanged otherwise. -/
def specAddRoom (rids : List String) (rid : String) : List String :=
  if rid ∈ rids then rids else rids ++ [rid]

/-- Spec side, section 4.2 step 5 wording for one joined room: ensure the
Room exists (create if new); apply state-delta events in listed order;
append timeline events and fan each out to the type-matching global
listeners in registration order; append ephemeral events and fan them out
analogously.  Every event is tagged with the containing room's id. -/
def specRoomChunk (glist elist : List Listener) (rids : List String)
    (p : String × JoinedRoomSection) : List Action :=
  (if p.1 ∈ rids then [] else [Action.mkRoom p.1]) ++
  [Action.setPrevBatch p.1 p.2.prev_batch] ++
  p.2.state.map (fun ev => Action.processState p.1 { ev with room_id := some p.1 }) ++
  p.2.timeline.flatMap (fun ev =>
    Action.putEvent p.1 { ev with room_id := some p.1 } ::
      (glist.filter (fun l => matchesFilterB l ev.etype)).map
        (fun l => Action.globalCb p.1 l.uid { ev with room_id := some p.1 })) ++
  p.2.ephemeral.flatMap (fun ev =>
    Action.putEphemeral p.1 { ev with room_id := some p.1 } ::
      (elist.filter (fun l => matchesFilterB l ev.etype)).map
        (fun l => Action.ephemeralCb p.1 l.uid { ev with room_id := some p.1 }))

/-- Spec side, section 4.2 step 5: the joined rooms processed one after the
other, each against the active set as left by the rooms before it. -/
def specJoinTrace (glist elist : List Listener) :
    List String → List (String × JoinedRoomSection) → List Action
  | _, [] => []
  | rids, p :: rest =>
    specRoomChunk glist elist rids p ++
      specJoinTrace glist elist (specAddRoom rids p.1) rest

/-- Spec side: the active room set after step 5 has ensured each joined
room exists. -/
def specJoinRooms : List String → List (String × JoinedRoomSection) → List String
  | rids, [] => rids
  | rids, p :: rest => specJoinRooms (specAddRoom rids p.1) rest

/-- Spec side, section 4.2, the algorithm's fixed order: 1. advance the
continuation token; 2. dispatch presence updates; 3. dispatch invite
notifications; 4. per left room, dispatch leave listeners then drop the
room; 5. per joined room, the `specRoomChunk` steps. -/
def specSyncTrace (st : ClientState) (tok : String) (pres : List MEvent)
    (rsec : RoomsSection) : List Action :=
  Action.tokenAdvance tok ::
    (presenceTrace st.presence_listeners pres ++
     inviteTrace st.invite_listeners rsec.invite ++
     specLeaveTrace st.left_listeners rsec.leave ++
     specJoinTrace st.listeners st.ephemeral_listeners
       (specLeaveRooms st.rooms rsec.leave) rsec.join)

/-- Spec side (claim C7): per the batch, the user holds a non-leave
membership in a room when the batch lists it under `invite` or `join`
(spec section 3: a Room is created on first appearance, join or invite). -/
def holdsNonLeaveMembership (rsec : RoomsSection) (rid : String) : Bool :=
  (rsec.invite.map Prod.fst).contains rid || (rsec.join.map Prod.fst).contains rid

end MatrixSync

namespace MatrixSync

/-- A loop body that emits one element when a decidable test holds equals a
filter followed by a map. -/
lemma flatMap_if_eq_filter_map {α β : Type} (p : α → Prop) [DecidablePred p]
    (f : α → β) (l : List α) :
    (l.flatMap fun a => if p a then [f a] else []) =
      (l.filter fun a => decide (p a)).map f := by
  induction l with
  | nil => rfl
  | cons x xs ih => by_cases h : p x <;> simp [h, ih]

/-- The global dispatch loop invokes exactly the filter-matching listeners,
in list (= registration) order. -/
lemma globalDispatch_eq_filter_map (glist : List Listener) (rid : String) (ev : MEvent) :
    globalDispatch glist rid ev =
      (glist.filter fun l => matchesFilterB l ev.etype).map
        (fun l => Action.globalCb rid l.uid ev) := by
  simpa [matchesFilterB] using
    flatMap_if_eq_filter_map
      (fun l : Listener => l.event_type = none ∨ l.event_type = some ev.etype)
      (fun l => Action.globalCb rid l.uid ev) glist

/-- The ephemeral dispatch loop invokes exactly the filter-matching
listeners, in list order. -/
lemma ephemeralDispatch_eq_filter_map (elist : List Listener) (rid : String) (ev : MEvent) :
    ephemeralDispatch elist rid ev =
      (elist.filter fun l => matchesFilterB l ev.etype).map
        (fun l => Action.ephemeralCb rid l.uid ev) := by
  simpa [matchesFilterB] using
    flatMap_if_eq_filter_map
      (fun l : Listener => l.event_type = none ∨ l.event_type = some ev.etype)
      (fun l => Action.ephemeralCb rid l.uid ev) elist

/-- Filtering away a uid that no entry carries keeps the list unchanged. -/
lemma filter_ne_uid_of_not_mem (l : List Listener) (uid : Nat)
    (h : uid ∉ l.map fun x => x.uid) :
    (l.filter fun x => decide (x.uid ≠ uid)) = l := by
  rw [List.filter_eq_self]
  intro x hx
  have hne : x.uid ≠ uid := by
    intro he
    exact h (he ▸ List.mem_map_of_mem (fun y => y.uid) hx)
  exact decide_eq_true hne

/-- `remove_listener` is the identity when the uid is not registered. -/
lemma remove_listener_of_not_mem (l : List Listener) (uid : Nat)
    (h : uid ∉ l.map fun x => x.uid) : remove_listener l uid = l :=
  filter_ne_uid_of_not_mem l uid h

/-- The room set left by the leave loop is `specLeaveRooms`. -/
lemma leave_foldl_rooms (llist : List Nat) (leaves : List (String × String)) :
    ∀ acc : List String × List Action,
      (leaves.foldl (leaveStep llist) acc).1 = specLeaveRooms acc.1 leaves := by
  induction leaves with
  | nil => intro acc; rfl
  | cons p rest ih =>
    intro acc
    simp only [List.foldl_cons]
    rw [ih]
    rfl

/-- The actions emitted by the leave loop are `specLeaveTrace`, appended to
whatever came before. -/
lemma leave_foldl_acts (llist : List Nat) (leaves : List (String × String)) :
    ∀ acc : List String × List Action,
      (leaves.foldl (leaveStep llist) acc).2 = acc.2 ++ specLeaveTrace llist leaves := by
  induction leaves with
  | nil => intro acc; simp [specLeaveTrace]
  | cons p rest ih =>
    intro acc
    simp only [List.foldl_cons]
    rw [ih]
    simp [specLeaveTrace, leaveStep, List.append_assoc]

/-- One join-loop iteration updates the room set exactly as the spec's
`get_or_create_room`. -/
lemma joinRoomStep_rooms (glist elist : List Listener) (acc : List String × List Action)
    (p : String × JoinedRoomSection) :
    (joinRoomStep glist elist acc p).1 = specAddRoom acc.1 p.1 := by
  by_cases h : p.1 ∈ acc.1 <;> simp [joinRoomStep, specAddRoom, h]

/-- A loop body that always emits exactly one element equals a map. -/
lemma flatMap_singleton_eq_map {α β : Type} (f : α → β) (l : List α) :
    (l.flatMap fun a => [f a]) = l.map f := by
  induction l with
  | nil => rfl
  | cons x xs ih => simp [ih]

/-- One join-loop iteration appends exactly the spec-ordered chunk for that
room. -/
lemma joinRoomStep_acts (glist elist : List Listener) (acc : List String × List Action)
    (p : String × JoinedRoomSection) :
    (joinRoomStep glist elist acc p).2 = acc.2 ++ specRoomChunk glist elist acc.1 p := by
  by_cases h : p.1 ∈ acc.1 <;>
    simp [joinRoomStep, specRoomChunk, h, globalDispatch_eq_filter_map,
      ephemeralDispatch_eq_filter_map, flatMap_singleton_eq_map, List.append_assoc]

/-- The room set left by the join loop is `specJoinRooms`. -/
lemma join_foldl_rooms (glist elist : List Listener)
    (joins : List (String × JoinedRoomSection)) :
    ∀ acc : List String × List Action,
      (joins.foldl (joinRoomStep glist elist) acc).1 = specJoinRooms acc.1 joins := by
  induction joins with
  | nil => intro acc; rfl
  | cons p rest ih =>
    intro acc
    simp only [List.foldl_cons]
    rw [ih]
    simp [specJoinRooms, joinRoomStep_rooms]

/-- The actions emitted by the join loop are `specJoinTrace`, appended to
whatever came before. -/
lemma join_foldl_acts (glist elist : List Listener)
    (joins : List (String × JoinedRoomSection)) :
    ∀ acc : List String × List Action,
      (joins.foldl (joinRoomStep glist elist) acc).2 =
        acc.2 ++ specJoinTrace glist elist acc.1 joins := by
  induction joins with
  | nil => intro acc; simp [specJoinTrace]
  | cons p rest ih =>
    intro acc
    simp only [List.foldl_cons]
    rw [ih]
    simp [specJoinTrace, joinRoomStep_acts, joinRoomStep_rooms, List.append_assoc]

/-- On a batch with all three required sections present, `_sync` returns no
error, its final room set is the spec's, and its action trace is exactly the
spec-ordered trace. -/
lemma syncModel_spec (st : ClientState) (tok : String) (pres : List MEvent)
    (rsec : RoomsSection) :
    syncModel st ⟨some tok, some pres, some rsec⟩ =
      ⟨none,
       { st with sync_token := some tok,
                 rooms := specJoinRooms (specLeaveRooms st.rooms rsec.leave) rsec.join },
       specSyncTrace st tok pres rsec⟩ := by
  simp only [syncModel]
  rw [join_foldl_acts, join_foldl_rooms, leave_foldl_acts, leave_foldl_rooms]
  simp [specSyncTrace, List.append_assoc]

end MatrixSync

namespace MatrixSync

lemma mem_specLeaveRooms (r : String) (leaves : List (String × String)) :
    ∀ rids : List String,
      r ∈ specLeaveRooms rids leaves ↔ r ∈ rids ∧ r ∉ leaves.map Prod.fst := by
  induction leaves with
  | nil => intro rids; simp [specLeaveRooms]
  | cons p rest ih =>
    intro rids
    simp only [specLeaveRooms]
    rw [ih]
    simp only [List.mem_filter, decide_eq_true_iff, List.map_cons, List.mem_cons]
    tauto

lemma mem_specJoinRooms (r : String) (joins : List (String × JoinedRoomSection)) :
    ∀ rids : List String,
      r ∈ specJoinRooms rids joins ↔ r ∈ rids ∨ r ∈ joins.map Prod.fst := by
  induction joins with
  | nil => intro rids; simp [specJoinRooms]
  | cons p rest ih =>
    intro rids
    simp only [specJoinRooms]
    rw [ih]
    by_cases h : p.1 ∈ rids
    · simp only [specAddRoom, if_pos h, List.map_cons, List.mem_cons]
      constructor
      · rintro (hr | hr)
        · exact Or.inl hr
        · exact Or.inr (Or.inr hr)
      · rintro (hr | rfl | hr)
        · exact Or.inl hr
        · exact Or.inl h
        · exact Or.inr hr
    · simp only [specAddRoom, if_neg h, List.map_cons, List.mem_cons, List.mem_append,
        List.mem_singleton]
      tauto

lemma eventRoomIdOk_specRoomChunk (glist elist : List Listener) (rids : List String)
    (p : String × JoinedRoomSection) :
    ∀ a ∈ specRoomChunk glist elist rids p, eventRoomIdOk a = true := by
  have h1 : ∀ a ∈ (if p.1 ∈ rids then ([] : List Action) else [Action.mkRoom p.1]),
      eventRoomIdOk a = true := by
    intro a ha
    by_cases h : p.1 ∈ rids
    · rw [if_pos h] at ha; cases ha
    · rw [if_neg h] at ha
      rcases List.mem_singleton.mp ha with rfl
      rfl
  have h2 : ∀ a ∈ [Action.setPrevBatch p.1 p.2.prev_batch], eventRoomIdOk a = true := by
    intro a ha
    rcases List.mem_singleton.mp ha with rfl
    rfl
  have h3 : ∀ a ∈ p.2.state.map
      (fun ev => Action.processState p.1 { ev with room_id := some p.1 }),
      eventRoomIdOk a = true := by
    intro a ha
    obtain ⟨ev, hev, rfl⟩ := List.mem_map.mp ha
    simp [eventRoomIdOk]
  have h4 : ∀ a ∈ p.2.timeline.flatMap (fun ev =>
      Action.putEvent p.1 { ev with room_id := some p.1 } ::
        (glist.filter fun l => matchesFilterB l ev.etype).map
          (fun l => Action.globalCb p.1 l.uid { ev with room_id := some p.1 })),
      eventRoomIdOk a = true := by
    intro a ha
    obtain ⟨ev, hev, hin⟩ := List.mem_flatMap.mp ha
    rcases List.mem_cons.mp hin with rfl | hmap
    · simp [eventRoomIdOk]
    · obtain ⟨l, hl, rfl⟩ := List.mem_map.mp hmap
      simp [eventRoomIdOk]
  have h5 : ∀ a ∈ p.2.ephemeral.flatMap (fun ev =>
      Action.putEphemeral p.1 { ev with room_id := some p.1 } ::
        (elist.filter fun l => matchesFilterB l ev.etype).map
          (fun l => Action.ephemeralCb p.1 l.uid { ev with room_id := some p.1 })),
      eventRoomIdOk a = true := by
    intro a ha
    obtain ⟨ev, hev, hin⟩ := List.mem_flatMap.mp ha
    rcases List.mem_cons.mp hin with rfl | hmap
    · simp [eventRoomIdOk]
    · obtain ⟨l, hl, rfl⟩ := List.mem_map.mp hmap
      simp [eventRoomIdOk]
  intro a ha
  simp only [specRoomChunk, List.mem_append] at ha
  rcases ha with (((ha | ha) | ha) | ha) | ha
  · exact h1 a ha
  · exact h2 a ha
  · exact h3 a ha
  · exact h4 a ha
  · exact h5 a ha

lemma eventRoomIdOk_specJoinTrace (glist elist : List Listener)
    (joins : List (String × JoinedRoomSection)) :
    ∀ (rids : List String), ∀ a ∈ specJoinTrace glist elist rids joins,
      eventRoomIdOk a = true := by
  induction joins with
  | nil =>
    intro rids a ha
    simp [specJoinTrace] at ha
  | cons p rest ih =>
    intro rids a ha
    simp only [specJoinTrace] at ha
    rcases List.mem_append.mp ha with ha | ha
    · exact eventRoomIdOk_specRoomChunk glist elist rids p a ha
    · exact ih (specAddRoom rids p.1) a ha

lemma eventRoomIdOk_presenceTrace (plist : List Nat) (evs : List MEvent) :
    ∀ a ∈ presenceTrace plist evs, eventRoomIdOk a = true := by
  intro a ha
  obtain ⟨ev, hev, hin⟩ := List.mem_flatMap.mp ha
  obtain ⟨u, hu, rfl⟩ := List.mem_map.mp hin
  rfl

lemma eventRoomIdOk_inviteTrace (ilist : List Nat) (invites : List (String × String)) :
    ∀ a ∈ inviteTrace ilist invites, eventRoomIdOk a = true := by
  intro a ha
  obtain ⟨q, hq, hin⟩ := List.mem_flatMap.mp ha
  obtain ⟨u, hu, rfl⟩ := List.mem_map.mp hin
  rfl

lemma eventRoomIdOk_specLeaveTrace (llist : List Nat) (leaves : List (String × String)) :
    ∀ a ∈ specLeaveTrace llist leaves, eventRoomIdOk a = true := by
  intro a ha
  obtain ⟨q, hq, hin⟩ := List.mem_flatMap.mp ha
  rcases List.mem_append.mp hin with hm | hm
  · obtain ⟨u, hu, rfl⟩ := List.mem_map.mp hm
    rfl
  · rcases List.mem_singleton.mp hm with rfl
    rfl

end MatrixSync

namespace MatrixSync

/-- Applying callbacks that remove nothing leaves the live list unchanged,
so the dispatch loop walks every element: the invoked uids are exactly the
filter-matching listeners, in order. -/
lemma dispatchLiveFuel_no_removes (etype : String) :
    ∀ (fuel i : Nat) (lst : List CbListener) (invoked : List Nat),
      (∀ l ∈ lst, l.removes = ([] : List Nat)) → lst.length - i ≤ fuel →
      dispatchLiveFuel etype fuel i lst invoked =
        (lst, invoked ++
          ((lst.drop i).filter
            (fun l => decide (l.event_type = none ∨ l.event_type = some etype))).map
            (fun l => l.uid)) := by
  intro fuel
  induction fuel with
  | zero =>
    intro i lst invoked hnr hf
    have hle : lst.length ≤ i := by omega
    simp [dispatchLiveFuel, List.drop_eq_nil_of_le hle]
  | succ fuel ih =>
    intro i lst invoked hnr hf
    by_cases h : i < lst.length
    · have hdrop : lst.drop i = lst.get ⟨i, h⟩ :: lst.drop (i + 1) :=
        List.drop_eq_get_cons h
      have hrm : removeUids lst (lst.get ⟨i, h⟩).removes = lst := by
        rw [hnr _ (lst.get_mem i h)]
        rfl
      by_cases hm : (lst.get ⟨i, h⟩).event_type = none ∨
          (lst.get ⟨i, h⟩).event_type = some etype
      · have hb : decide ((lst.get ⟨i, h⟩).event_type = none ∨
            (lst.get ⟨i, h⟩).event_type = some etype) = true := decide_eq_true hm
        rw [dispatchLiveFuel]
        simp only [dif_pos h, if_pos hm, hrm]
        rw [ih (i + 1) lst (invoked ++ [(lst.get ⟨i, h⟩).uid]) hnr (by omega)]
        rw [hdrop]
        simp only [List.filter_cons, hb, if_true]
        simp only [List.map_cons, List.append_assoc]
        rfl
      · have hb : decide ((lst.get ⟨i, h⟩).event_type = none ∨
            (lst.get ⟨i, h⟩).event_type = some etype) = false := decide_eq_false hm
        rw [dispatchLiveFuel]
        simp only [dif_pos h, if_neg hm]
        rw [ih (i + 1) lst invoked hnr (by omega)]
        rw [hdrop]
        simp only [List.filter_cons, hb]
        rw [if_neg (fun hcc => Bool.false_ne_true hcc)]
    · have hle : lst.length ≤ i := by omega
      rw [dispatchLiveFuel]
      simp [dif_neg h, List.drop_eq_nil_of_le hle]

end MatrixSync

namespace MatrixSync

/-- Claim C1, counterexample: for the concrete batch missing the `rooms`
section (next token "t1", one presence event) against a client with
`sync_token = some "t0"` and one presence listener, `_sync` raises, yet the
continuation token has moved to "t1" and a presence listener was invoked:
the batch is not rejected in its entirety, refuting the claimed
failure-atomicity at this input. -/
theorem sync_missing_rooms_counterexample :
    ((syncModel ⟨some "t0", [], [], [], [7], [], []⟩
        ⟨some "t1", some [⟨"m.presence", none, ""⟩], none⟩).err = some SyncError.keyError) ∧
    ((syncModel ⟨some "t0", [], [], [], [7], [], []⟩
        ⟨some "t1", some [⟨"m.presence", none, ""⟩], none⟩).state.sync_token = some "t1") ∧
    ((syncModel ⟨some "t0", [], [], [], [7], [], []⟩
        ⟨some "t1", some [⟨"m.presence", none, ""⟩], none⟩).actions.any isListenerCallback
      = true) ∧
    ¬ (((syncModel ⟨some "t0", [], [], [], [7], [], []⟩
          ⟨some "t1", some [⟨"m.presence", none, ""⟩], none⟩).state.sync_token = some "t0") ∧
       ((syncModel ⟨some "t0", [], [], [], [7], [], []⟩
          ⟨some "t1", some [⟨"m.presence", none, ""⟩], none⟩).actions.any isListenerCallback
         = false)) := by
  decide

/-- Claim C1 (corrected): a batch missing the `rooms` section makes `_sync`
signal an error and none of its room sections are applied (the active room
set and all room/user state are untouched), but reconciliation is not
failure-atomic: before the error is raised, the continuation token has
already been advanced to the batch's token (line 674 runs before the first
`response['rooms']` access at line 684) and every presence listener has
already been invoked for each of the batch's presence events. -/
theorem sync_missing_rooms_amended (st : ClientState) (tok : String) (pres : List MEvent) :
    syncModel st ⟨some tok, some pres, none⟩ =
      ⟨some SyncError.keyError, { st with sync_token := some tok },
        Action.tokenAdvance tok :: presenceTrace st.presence_listeners pres⟩ := rfl

/-- Claim C2 (code_bug): under three consecutive 5xx errors with base 5 the
code sleeps 5, 5, 5 - not 5, 10, 20 - because line 579 sleeps the constant
`bad_sync_timeout` parameter while the doubled `_bad_sync_timeout` (line
580, reaching 40 here) is never passed to `sleep`; the docstring of
`listen_forever` promises the wait "will be increased according to
exponential backoff".  The sleeps stay at the base even with ceiling 60 and
after an intervening success. -/
theorem backoff_sleep_uses_constant_base :
    listen_forever_sleeps 5 3600
        [SyncOutcome.requestError 500, SyncOutcome.requestError 500,
         SyncOutcome.requestError 500] = [5, 5, 5] ∧
    listen_forever_sleeps 5 3600
        [SyncOutcome.requestError 500, SyncOutcome.requestError 500,
         SyncOutcome.requestError 500] ≠ [5, 10, 20] ∧
    listen_forever_backoff 5 3600
        [SyncOutcome.requestError 500, SyncOutcome.requestError 500,
         SyncOutcome.requestError 500] = 40 ∧
    listen_forever_sleeps 5 60
        [SyncOutcome.requestError 500, SyncOutcome.requestError 500,
         SyncOutcome.requestError 500, SyncOutcome.success,
         SyncOutcome.requestError 500] = [5, 5, 5, 5] := by
  decide

/-- Claim C3, counterexample: removing a presence listener whose id is not
registered is not a no-op: `presence_listeners.pop(uid)` raises `KeyError`
(modelled by `none`) on the empty registry instead of leaving it unchanged. -/
theorem presence_remove_absent_counterexample :
    remove_presence_listener [] 5 = none ∧ remove_presence_listener [] 5 ≠ some [] := by
  decide

/-- Claim C3 (corrected): the global and ephemeral registries support add
(returning an opaque id) and remove by id that is a no-op when the id is
absent; the presence registry's add returns an id but its remove raises
(`none`) when the id is absent; the invite and leave registries' add
returns no id (see `add_invite_listener` / `add_leave_listener`, which
return only the updated list) and the code has no remove operation for
them. -/
theorem listener_registries_amended (gl el : List Listener) (d : List Nat) (uid : Nat)
    (hg : uid ∉ gl.map (fun x => x.uid)) (he : uid ∉ el.map (fun x => x.uid))
    (hd : uid ∉ d) :
    (add_listener gl uid none).2 = uid ∧
    (add_ephemeral_listener el uid none).2 = uid ∧
    (add_presence_listener d uid).2 = uid ∧
    remove_listener gl uid = gl ∧
    remove_ephemeral_listener el uid = el ∧
    remove_presence_listener d uid = none := by
  refine ⟨rfl, rfl, rfl, remove_listener_of_not_mem gl uid hg, ?_, ?_⟩
  · exact filter_ne_uid_of_not_mem el uid he
  · simp [remove_presence_listener, hd]

/-- Witness for `listener_registries_amended` at concrete registries. -/
theorem listener_registries_amended_witness :
    (add_listener [⟨1, none⟩] 9 none).2 = 9 ∧
    (add_ephemeral_listener [⟨2, some "A"⟩] 9 none).2 = 9 ∧
    (add_presence_listener [3] 9).2 = 9 ∧
    remove_listener [⟨1, none⟩] 9 = [⟨1, none⟩] ∧
    remove_ephemeral_listener [⟨2, some "A"⟩] 9 = [⟨2, some "A"⟩] ∧
    remove_presence_listener [3] 9 = none :=
  listener_registries_amended [⟨1, none⟩] [⟨2, some "A"⟩] [3] 9 (by decide) (by decide)
    (by decide)

/-- Claim C4, counterexample: calling `start_listener_thread` while the
loop is already Running (right after a first start) is not a no-op: it
starts a second iterating worker thread. -/
theorem start_listener_thread_twice_counterexample :
    (start_listener_thread (start_listener_thread idleThreadState 1) 2).started = [1, 2] ∧
    start_listener_thread (start_listener_thread idleThreadState 1) 2 ≠
      start_listener_thread idleThreadState 1 := by
  decide

/-- Claim C4 (corrected): `start_listener_thread` is not idempotent: it has
no already-running check, so every call - including one made in the Running
state - constructs and starts one more worker thread, stores it in
`sync_thread` and sets `should_listen`; a call in the Idle state does
transition to Running, but a call in the Running state starts a second
worker instead of being a no-op. -/
theorem start_listener_thread_always_starts_amended (st : ListenerThreadState) (tid : Nat) :
    (start_listener_thread st tid).started = st.started ++ [tid] ∧
    (start_listener_thread st tid).should_listen = true ∧
    (start_listener_thread st tid).sync_thread = some tid :=
  ⟨rfl, rfl, rfl⟩

/-- Claim C5, counterexample: with global listeners L1 (uid 1, no filter,
callback removes uid 1) and L2 (uid 2, no filter), dispatching one event of
type "A" invokes only L1: L2 was registered at the start of the dispatch
and never removed (it is still in the final list), yet it is skipped
because the live list shrank under the iterator. -/
theorem dispatch_live_removal_skips_counterexample :
    (dispatchLive "A" [⟨1, none, [1]⟩, ⟨2, none, []⟩]).2 = [1] ∧
    (⟨2, none, []⟩ : CbListener) ∈ (dispatchLive "A" [⟨1, none, [1]⟩, ⟨2, none, []⟩]).1 ∧
    2 ∉ (dispatchLive "A" [⟨1, none, [1]⟩, ⟨2, none, []⟩]).2 := by
  decide

/-- Claim C5 (corrected): removing a listener from within a dispatch
callback is not safe: the dispatch loop iterates the live list (no copy)
and `remove_listener` mutates it in place, so a callback that removes a
listener at or before its own position makes the iterator skip the
following listener - concretely, when the first listener's callback removes
that first listener, a second, never-removed listener is not invoked for
the event.  Only when no callback removes any listener is every
type-matching listener invoked exactly once, in order. -/
theorem dispatch_live_removal_amended :
    (∀ u2 : Nat, u2 ≠ 1 →
      dispatchLive "A" [⟨1, none, [1]⟩, ⟨u2, none, []⟩] = ([⟨u2, none, []⟩], [1])) ∧
    (∀ (etype : String) (lst : List CbListener),
      (∀ l ∈ lst, l.removes = ([] : List Nat)) →
      (dispatchLive etype lst).2 =
        (lst.filter
          (fun l => decide (l.event_type = none ∨ l.event_type = some etype))).map
          (fun l => l.uid)) := by
  constructor
  · intro u2 h
    have hne : decide (u2 = 1) = false := decide_eq_false h
    simp [dispatchLive, dispatchLiveFuel, removeUids, hne]
  · intro etype lst hnr
    rw [dispatchLive, dispatchLiveFuel_no_removes etype lst.length 0 lst [] hnr (by omega)]
    simp

/-- Witness for `dispatch_live_removal_amended` at uid 3. -/
theorem dispatch_live_removal_amended_witness :
    dispatchLive "A" [⟨1, none, [1]⟩, ⟨3, none, []⟩] = ([⟨3, none, []⟩], [1]) :=
  dispatch_live_removal_amended.1 3 (by decide)

/-- Claim C6 (confirmed): for every timeline event, the global dispatch
loop invokes exactly the registered listeners whose filter is absent or
equals the event's type, in registration order; concretely, with L1 (uid 1,
filter "A") registered before L2 (uid 2, no filter), reconciling a batch
whose timeline holds an "A" event then a "B" event produces the global
callback sequence L1, L2 (for the "A" event) followed by L2 alone (for the
"B" event). -/
theorem global_dispatch_order_and_filtering :
    (∀ (glist : List Listener) (rid : String) (ev : MEvent),
      globalDispatch glist rid ev =
        (glist.filter fun l => matchesFilterB l ev.etype).map
          (fun l => Action.globalCb rid l.uid ev)) ∧
    ((syncModel ⟨some "t0", [], [⟨1, some "A"⟩, ⟨2, none⟩], [], [], [], []⟩
        ⟨some "t1", some [], some ⟨[], [],
          [("r1", ⟨"pb", [], [⟨"A", none, ""⟩, ⟨"B", none, ""⟩], []⟩)]⟩⟩).actions.filter
        isGlobalCb =
      [Action.globalCb "r1" 1 ⟨"A", some "r1", ""⟩,
       Action.globalCb "r1" 2 ⟨"A", some "r1", ""⟩,
       Action.globalCb "r1" 2 ⟨"B", some "r1", ""⟩]) :=
  ⟨globalDispatch_eq_filter_map, by decide⟩

/-- Claim C7, counterexample: a successfully reconciled batch that lists
room "r1" only under `invite` leaves the active set empty although the user
holds a non-leave (invite) membership in "r1" per that batch: the
active-set iff fails because invited rooms are never added. -/
theorem active_set_invite_counterexample :
    holdsNonLeaveMembership ⟨[("r1", "s")], [], []⟩ "r1" = true ∧
    (syncModel ⟨some "t0", [], [], [], [], [], []⟩
        ⟨some "t1", some [], some ⟨[("r1", "s")], [], []⟩⟩).err = none ∧
    "r1" ∉ (syncModel ⟨some "t0", [], [], [], [], [], []⟩
        ⟨some "t1", some [], some ⟨[("r1", "s")], [], []⟩⟩).state.rooms := by
  decide

/-- Claim C7 (corrected): for every room id in the batch's `leave` section,
reconciliation first invokes all leave listeners for that room and then
removes the room from the active set (the guarded delete never errors, and
the call returns no error whether or not those rooms were active); however,
after a successfully reconciled batch a room is in the active set iff it
appears in the batch's `join` section or was already active and does not
appear in the `leave` section - invited rooms are not added, so the claimed
"active iff non-leave membership per the batch" fails (see the
counterexample). -/
theorem leave_and_active_set_amended (st : ClientState) (tok : String)
    (pres : List MEvent) (rsec : RoomsSection) :
    (syncModel st ⟨some tok, some pres, some rsec⟩).err = none ∧
    (syncModel st ⟨some tok, some pres, some rsec⟩).actions =
      Action.tokenAdvance tok ::
        (presenceTrace st.presence_listeners pres ++
         inviteTrace st.invite_listeners rsec.invite ++
         rsec.leave.flatMap (fun p =>
           st.left_listeners.map (fun uid => Action.leaveCb uid p.1 p.2) ++
             [Action.dropRoom p.1]) ++
         specJoinTrace st.listeners st.ephemeral_listeners
           (specLeaveRooms st.rooms rsec.leave) rsec.join) ∧
    (∀ rid : String,
      rid ∈ (syncModel st ⟨some tok, some pres, some rsec⟩).state.rooms ↔
        (rid ∈ rsec.join.map Prod.fst ∨
          (rid ∈ st.rooms ∧ rid ∉ rsec.leave.map Prod.fst))) := by
  refine ⟨?_, ?_, ?_⟩
  · rw [syncModel_spec]
  · rw [syncModel_spec]
    rfl
  · intro rid
    rw [syncModel_spec]
    show rid ∈ specJoinRooms (specLeaveRooms st.rooms rsec.leave) rsec.join ↔ _
    rw [mem_specJoinRooms rid rsec.join (specLeaveRooms st.rooms rsec.leave),
      mem_specLeaveRooms rid rsec.leave st.rooms]
    tauto

/-- Claim C8 (confirmed): on any batch with the three required top-level
sections, the trace of `_sync` equals the spec-ordered trace:
continuation-token advance, then presence dispatch, then invite dispatch,
then per-left-room leave dispatch and removal, then per joined room:
creation if new, prev-batch update, state-delta application, timeline
append with global-listener fan-out, and ephemeral append with
ephemeral-listener fan-out. -/
theorem sync_performs_steps_in_spec_order (st : ClientState) (tok : String)
    (pres : List MEvent) (rsec : RoomsSection) :
    (syncModel st ⟨some tok, some pres, some rsec⟩).err = none ∧
    (syncModel st ⟨some tok, some pres, some rsec⟩).actions =
      specSyncTrace st tok pres rsec := by
  rw [syncModel_spec]
  exact ⟨rfl, rfl⟩

/-- Claim C9 (confirmed): every state, timeline, and ephemeral event of a
joined room is tagged with the containing room's id before being handed to
room processing or to listener callbacks: in every `_sync` trace, each
room-scoped action carries an event whose `room_id` equals the id of the
room it arrived in. -/
theorem sync_tags_events_with_room_id (st : ClientState) (resp : SyncResponse) :
    ((syncModel st resp).actions.all eventRoomIdOk) = true := by
  rcases resp with ⟨nb, pr, rs⟩
  rw [List.all_eq_true]
  cases nb with
  | none =>
    intro a ha
    simp [syncModel] at ha
  | some tok =>
    cases pr with
    | none =>
      intro a ha
      simp only [syncModel] at ha
      rcases List.mem_singleton.mp ha with rfl
      rfl
    | some presEvents =>
      cases rs with
      | none =>
        intro a ha
        simp only [syncModel] at ha
        rcases List.mem_cons.mp ha with rfl | ha
        · rfl
        · exact eventRoomIdOk_presenceTrace _ _ a ha
      | some rsec =>
        rw [syncModel_spec]
        intro a ha
        simp only [specSyncTrace] at ha
        rcases List.mem_cons.mp ha with rfl | ha
        · rfl
        · rcases List.mem_append.mp ha with ha | ha
          · rcases List.mem_append.mp ha with ha | ha
            · rcases List.mem_append.mp ha with ha | ha
              · exact eventRoomIdOk_presenceTrace _ _ a ha
              · exact eventRoomIdOk_inviteTrace _ _ a ha
            · exact eventRoomIdOk_specLeaveTrace _ _ a ha
          · exact eventRoomIdOk_specJoinTrace _ _ _ _ a ha

/-- Claim C10 (confirmed): when the fresh id returned by `add_listener` is
not already registered (uuid4 freshness), adding and then removing by that
id restores the collection exactly; `remove_listener` always keeps a
subsequence of the original (relative order of survivors preserved)
containing exactly the entries whose uid differs from the removed one. -/
theorem add_remove_listener_round_trip (l : List Listener) (uid : Nat)
    (et : Option String) (h : uid ∉ l.map (fun x => x.uid)) :
    remove_listener (add_listener l uid et).1 uid = l ∧
    List.Sublist (remove_listener l uid) l ∧
    (∀ x : Listener, x ∈ remove_listener l uid ↔ x ∈ l ∧ x.uid ≠ uid) := by
  refine ⟨?_, List.filter_sublist l, ?_⟩
  · show (l ++ [⟨uid, et⟩] : List Listener).filter (fun x => decide (x.uid ≠ uid)) = l
    rw [List.filter_append, filter_ne_uid_of_not_mem l uid h]
    simp
  · intro x
    simp [remove_listener, List.mem_filter]

/-- Witness for `add_remove_listener_round_trip` at a concrete registry. -/
theorem add_remove_listener_round_trip_witness :
    remove_listener (add_listener [⟨1, none⟩] 2 none).1 2 = [⟨1, none⟩] :=
  (add_remove_listener_round_trip [⟨1, none⟩] 2 none (by decide)).1

end MatrixSync
